import Mathlib

/-!
# Verification of the epf-flower-data-science parameters and authentication routes

Shallow embedding of `src/api/routes/parameters.py` and
`src/api/routes/authentication.py`.

A Firestore document holding the tunable parameters is modelled as an
association list from string keys to values (`Dict V`); the store holds at
most one such document (`Store V := Option (Dict V)`).  Python's
`{**existing, **new}` merge is modelled by `pyUpdate`, which folds the
incoming pairs into the existing dict, replacing a key's value in place when
the key is already present (as Python dicts do) and appending otherwise.
`del d[k]` guarded by `k in d` is modelled by `deleteKeys`.

Each FastAPI endpoint becomes a pure function from the store (plus the
request body) to an `Except HTTPException response` together with the store
after the call.  A raised `fastapi.HTTPException` that is caught by a broad
`except Exception` clause is re-wrapped the way the Python code does,
using `strOfExc` for Starlette's `__str__` (`f"{status_code}: {detail}"`).
-/

/-- `fastapi.HTTPException`: an HTTP status code together with a detail
string. -/
structure HTTPException where
  status : Nat
  detail : String
deriving DecidableEq

/-- Starlette's `HTTPException.__str__`, i.e. `f"{self.status_code}: {self.detail}"`. -/
def strOfExc (e : HTTPException) : String :=
  toString e.status ++ ": " ++ e.detail

/-- A Firestore document's field map: Python dict from string keys to values. -/
abbrev Dict (V : Type) : Type := List (String × V)

/-- The parameters collection holds at most the single `parameters` document. -/
abbrev Store (V : Type) : Type := Option (Dict V)

namespace Dict

variable {V : Type}

/-- Python dict lookup `d[k]` / `d.get(k)`: the entry for `k`, if any. -/
def lookup (d : Dict V) (k : String) : Option V :=
  (List.find? (fun p => p.1 = k) d).map Prod.snd

/-- Python dict key membership `k in d`. -/
def hasKey (d : Dict V) (k : String) : Bool :=
  List.any d (fun p => p.1 = k)

/-- Python dict assignment `d[k] = v`: replace in place when the key is
present, append otherwise. -/
def insert (d : Dict V) (k : String) (v : V) : Dict V :=
  if hasKey d k then
    List.map (fun p => if p.1 = k then (k, v) else p) d
  else
    d ++ [(k, v)]

/-- Python's `{**d, **incoming}`: fold the incoming pairs into `d`. -/
def pyUpdate (d incoming : Dict V) : Dict V :=
  List.foldl (fun acc p => insert acc p.1 p.2) d incoming

/-- One iteration of the deletion loop:
`if param in current_parameters: del current_parameters[param]`. -/
def removeKey (d : Dict V) (k : String) : Dict V :=
  if hasKey d k then List.filter (fun p => ¬ p.1 = k) d else d

/-- The whole deletion loop `for param in parameters_to_delete: ...`. -/
def deleteKeys (d : Dict V) (ks : List String) : Dict V :=
  List.foldl removeKey d ks

/-- The list of keys of a dict, in order. -/
def keys (d : Dict V) : List String :=
  List.map Prod.fst d

end Dict

/-- Response body of `POST /add-parameters` and `PUT /update-parameters`:
`{"message": ..., "parameters": ...}`. -/
structure ParamsResponse (V : Type) where
  message : String
  parameters : Dict V
deriving DecidableEq

/-- Response body of `GET /retrieve-parameters`: `{"parameters": ...}`. -/
structure RetrieveResponse (V : Type) where
  parameters : Dict V
deriving DecidableEq

/-- Response body of `DELETE /delete-parameters`. -/
structure DeleteResponse (V : Type) where
  message : String
  deleted_parameters : List String
  remaining_parameters : Dict V
deriving DecidableEq

section ParametersRoutes

variable {V : Type}

/-- `GET /retrieve-parameters`.  The 404 raised when the document is absent
is caught by the function's own `except Exception` clause and re-raised as a
500 whose detail is `str(e)`. -/
def retrieve_parameters (store : Store V) : Except HTTPException (RetrieveResponse V) :=
  match store with
  | some d => .ok ⟨d⟩
  | none =>
      .error ⟨500, strOfExc ⟨404, "Parameters document not found in Firestore"⟩⟩

/-- `POST /add-parameters`: merge into the existing document, or create it. -/
def add_parameters (store : Store V) (new_parameters : Dict V) :
    Except HTTPException (ParamsResponse V) × Store V :=
  match store with
  | some existing_parameters =>
      let merged_parameters := Dict.pyUpdate existing_parameters new_parameters
      (.ok ⟨"Parameters merged successfully", merged_parameters⟩,
       some merged_parameters)
  | none =>
      (.ok ⟨"New parameters document created successfully", new_parameters⟩,
       some new_parameters)

/-- `PUT /update-parameters`: 404 when the document is absent (this route has
an `except HTTPException: raise e` clause, so the 404 survives), otherwise
the same merge-and-overwrite as `add_parameters`. -/
def update_parameters (store : Store V) (updated_parameters : Dict V) :
    Except HTTPException (ParamsResponse V) × Store V :=
  match store with
  | none =>
      (.error ⟨404, "Parameters document not found in Firestore"⟩, none)
  | some current_parameters =>
      let merged_parameters := Dict.pyUpdate current_parameters updated_parameters
      (.ok ⟨"Parameters updated successfully", merged_parameters⟩,
       some merged_parameters)

/-- `DELETE /delete-parameters`.  The 404 raised when the document is absent
is caught by the route's own `except Exception` clause and re-raised as a 500
with detail `f"Internal Server Error: {str(e)}"`. -/
def delete_parameters (store : Store V) (parameters_to_delete : List String) :
    Except HTTPException (DeleteResponse V) × Store V :=
  match store with
  | none =>
      (.error ⟨500, "Internal Server Error: " ++
          strOfExc ⟨404, "Parameters document not found in Firestore"⟩⟩, none)
  | some current_parameters =>
      let remaining := Dict.deleteKeys current_parameters parameters_to_delete
      (.ok ⟨"Parameters deleted successfully", parameters_to_delete, remaining⟩,
       some remaining)

end ParametersRoutes

/-- Reading a key out of an optional document: `none` when the document is
absent. -/
def storeGet {V : Type} (s : Store V) (k : String) : Option V :=
  Option.bind s (fun d => Dict.lookup d k)

namespace Dict

variable {V : Type}

theorem lookup_cons_of_pos (p : String × V) (d : Dict V) (k : String) (h : p.1 = k) :
    lookup (p :: d) k = some p.2 := by
  unfold lookup
  rw [List.find?_cons_of_pos _ (by simp [h])]
  rfl

theorem lookup_cons_of_neg (p : String × V) (d : Dict V) (k : String) (h : ¬ p.1 = k) :
    lookup (p :: d) k = lookup d k := by
  unfold lookup
  rw [List.find?_cons_of_neg _ (by simp [h])]

theorem hasKey_iff_mem_keys (d : Dict V) (k : String) :
    hasKey d k = true ↔ k ∈ keys d := by
  simp [hasKey, keys, List.any_eq_true]

theorem lookup_eq_none_iff (d : Dict V) (k : String) :
    lookup d k = none ↔ hasKey d k = false := by
  simp only [lookup, Option.map_eq_none', List.find?_eq_none, decide_eq_true_eq, hasKey,
    Bool.eq_false_iff, ne_eq, List.any_eq_true, not_exists, not_and]

theorem lookup_map_overwrite (d : Dict V) (k k' : String) (v : V) (h : ¬ k' = k) :
    lookup (List.map (fun p => if p.1 = k then (k, v) else p) d) k' = lookup d k' := by
  induction d with
  | nil => rfl
  | cons p d ih =>
    simp only [List.map_cons]
    by_cases hpk : p.1 = k
    · rw [if_pos hpk,
        lookup_cons_of_neg (k, v) _ k' (fun hc => h hc.symm),
        lookup_cons_of_neg p d k' (fun hc => h (hpk ▸ hc).symm)]
      exact ih
    · rw [if_neg hpk]
      by_cases hpk' : p.1 = k'
      · rw [lookup_cons_of_pos p _ k' hpk', lookup_cons_of_pos p d k' hpk']
      · rw [lookup_cons_of_neg p _ k' hpk', lookup_cons_of_neg p d k' hpk']
        exact ih

theorem lookup_map_overwrite_self (d : Dict V) (k : String) (v : V)
    (h : hasKey d k = true) :
    lookup (List.map (fun p => if p.1 = k then (k, v) else p) d) k = some v := by
  induction d with
  | nil => simp [hasKey] at h
  | cons p d ih =>
    simp only [List.map_cons]
    by_cases hpk : p.1 = k
    · rw [if_pos hpk, lookup_cons_of_pos (k, v) _ k rfl]
    · rw [if_neg hpk, lookup_cons_of_neg p _ k hpk]
      have h' : hasKey d k = true := by
        simp only [hasKey, List.any_cons, Bool.or_eq_true, decide_eq_true_eq] at h
        rcases h with h | h
        · exact absurd h hpk
        · exact h
      exact ih h'

theorem lookup_insert (d : Dict V) (k k' : String) (v : V) :
    lookup (insert d k v) k' = if k' = k then some v else lookup d k' := by
  unfold insert
  by_cases hmem : hasKey d k = true
  · rw [if_pos hmem]
    by_cases hk : k' = k
    · subst hk
      rw [if_pos rfl]
      exact lookup_map_overwrite_self d k' v hmem
    · rw [if_neg hk]
      exact lookup_map_overwrite d k k' v hk
  · rw [if_neg hmem]
    by_cases hk : k' = k
    · subst hk
      rw [if_pos rfl]
      unfold lookup
      rw [List.find?_append]
      have hnone : List.find? (fun p => decide (p.1 = k')) d = none := by
        have h0 : lookup d k' = none :=
          (lookup_eq_none_iff d k').mpr (by simpa using hmem)
        unfold lookup at h0
        exact Option.map_eq_none'.mp h0
      rw [hnone, Option.none_or, List.find?_cons_of_pos _ (by simp)]
      rfl
    · rw [if_neg hk]
      unfold lookup
      rw [List.find?_append]
      have hsingle : List.find? (fun p => decide (p.1 = k')) [(k, v)] = none := by
        rw [List.find?_eq_none]
        intro x hx
        simp only [List.mem_singleton] at hx
        subst hx
        simpa using fun hc => hk hc.symm
      rw [hsingle, Option.or_none]

theorem lookup_pyUpdate (incoming : Dict V) (d : Dict V) (k : String)
    (h : (keys incoming).Nodup) :
    lookup (pyUpdate d incoming) k = Option.or (lookup incoming k) (lookup d k) := by
  induction incoming generalizing d with
  | nil => simp [pyUpdate, lookup]
  | cons p rest ih =>
    have hrest : (keys rest).Nodup := (List.nodup_cons.mp h).2
    have hnotmem : ¬ p.1 ∈ keys rest := (List.nodup_cons.mp h).1
    show lookup (pyUpdate (insert d p.1 p.2) rest) k = _
    rw [ih (insert d p.1 p.2) hrest, lookup_insert]
    by_cases hk : k = p.1
    · subst hk
      have hres : lookup rest p.1 = none := by
        rw [lookup_eq_none_iff]
        exact Bool.eq_false_iff.mpr
          (fun hc => hnotmem ((hasKey_iff_mem_keys rest p.1).mp hc))
      rw [hres, if_pos rfl, Option.none_or, lookup_cons_of_pos p rest p.1 rfl]
      rfl
    · rw [if_neg hk, lookup_cons_of_neg p rest k (fun hc => hk hc.symm)]

theorem removeKey_eq_filter (d : Dict V) (k : String) :
    removeKey d k = List.filter (fun p => ¬ p.1 = k) d := by
  unfold removeKey
  by_cases h : hasKey d k = true
  · rw [if_pos h]
  · rw [if_neg h]
    have hall : ∀ p ∈ d, ¬ p.1 = k := fun p hp hc =>
      h ((hasKey_iff_mem_keys d k).mpr (List.mem_map.mpr ⟨p, hp, hc⟩))
    exact (List.filter_eq_self.mpr (fun p hp => by simpa using hall p hp)).symm

theorem deleteKeys_eq_filter (ks : List String) (d : Dict V) :
    deleteKeys d ks = List.filter (fun p => ¬ p.1 ∈ ks) d := by
  induction ks generalizing d with
  | nil =>
    show d = _
    exact (List.filter_eq_self.mpr (fun p _ => by simp)).symm
  | cons k ks ih =>
    show deleteKeys (removeKey d k) ks = _
    rw [ih, removeKey_eq_filter, List.filter_filter]
    refine List.filter_congr (fun p _ => ?_)
    by_cases h1 : p.1 = k <;> by_cases h2 : p.1 ∈ ks <;> simp [h1, h2]

theorem lookup_deleteKeys (ks : List String) (d : Dict V) (k : String) :
    lookup (deleteKeys d ks) k = if k ∈ ks then none else lookup d k := by
  rw [deleteKeys_eq_filter]
  by_cases hk : k ∈ ks
  · rw [if_pos hk, lookup_eq_none_iff, Bool.eq_false_iff]
    intro hc
    obtain ⟨p, hp, hpk⟩ := List.mem_map.mp ((hasKey_iff_mem_keys _ k).mp hc)
    have hnot := List.of_mem_filter hp
    simp only [decide_eq_true_eq] at hnot
    exact hnot (hpk.symm ▸ hk)
  · rw [if_neg hk]
    induction d with
    | nil => rfl
    | cons p d ih =>
      simp only [List.filter_cons]
      by_cases hpks : p.1 ∈ ks
      · rw [if_neg (by simpa using hpks)]
        have hpk : ¬ p.1 = k := fun hc => hk (hc ▸ hpks)
        rw [ih, lookup_cons_of_neg p d k hpk]
      · rw [if_pos (by simpa using hpks)]
        by_cases hpk : p.1 = k
        · rw [lookup_cons_of_pos p _ k hpk, lookup_cons_of_pos p d k hpk]
        · rw [lookup_cons_of_neg p _ k hpk, lookup_cons_of_neg p d k hpk, ih]

end Dict

/-! ## Authentication routes (`src/api/routes/authentication.py`) -/

/-- A Firebase Authentication user record, as far as these routes observe it:
uid, email, password, and the custom-claims map (absent until
`set_custom_user_claims` is first called for the user). -/
structure FBUser where
  uid : String
  email : String
  password : String
  custom_claims : Option (List (String × Bool))
deriving DecidableEq

/-- `auth.set_custom_user_claims(uid, claims)`: overwrite the claims map of
the user(s) with that uid. -/
def set_custom_user_claims (users : List FBUser) (uid : String)
    (claims : List (String × Bool)) : List FBUser :=
  List.map (fun u => if u.uid = uid then { u with custom_claims := some claims } else u)
    users

/-- Response model of `POST /auth/register`. -/
structure UserResponse where
  message : String
  uid : String
  is_admin : Bool
deriving DecidableEq

/-- Response model of `POST /auth/login`. -/
structure TokenResponse where
  token : String
  uid : String
deriving DecidableEq

/-- Which of the external SDK calls made by `register` raise: `create_user`,
`list_users`, the `set_custom_user_claims` call on the chosen branch, and the
`set_custom_user_claims` call inside the `except Exception` handler. -/
structure RegisterOracle where
  create_user_fails : Bool
  list_users_fails : Bool
  set_claims_fails : Bool
  fallback_set_claims_fails : Bool
deriving DecidableEq

/-- `POST /auth/register`.  `create_user` fails (→ 400) when the SDK call
raises or the email is already taken.  Afterwards the just-created user is
counted among `list_users()`; `user_count` stops at 2 by the early `break`.
Any exception from counting or claim-setting lands in the inner
`except Exception` handler, which itself calls `set_custom_user_claims`;
if that call also raises, the outer handler returns 400. -/
def register (o : RegisterOracle) (users : List FBUser)
    (new_uid email password : String) :
    Except HTTPException UserResponse × List FBUser :=
  if o.create_user_fails || List.any users (fun u => u.email = email) then
    (.error ⟨400, "auth error: create_user failed"⟩, users)
  else
    let users₁ := users ++ [⟨new_uid, email, password, none⟩]
    let fallback : Except HTTPException UserResponse × List FBUser :=
      if o.fallback_set_claims_fails then
        (.error ⟨400, "auth error: set_custom_user_claims failed"⟩, users₁)
      else
        (.ok ⟨"User created successfully", new_uid, false⟩,
         set_custom_user_claims users₁ new_uid [("admin", false)])
    if o.list_users_fails then
      fallback
    else
      let user_count := min users₁.length 2
      if user_count ≤ 1 then
        if o.set_claims_fails then fallback
        else
          (.ok ⟨"First user created successfully as admin", new_uid, true⟩,
           set_custom_user_claims users₁ new_uid [("admin", true)])
      else
        if o.set_claims_fails then fallback
        else
          (.ok ⟨"User created successfully", new_uid, false⟩,
           set_custom_user_claims users₁ new_uid [("admin", false)])

/-- `auth.create_custom_token(uid)`, as an opaque-but-deterministic mint. -/
def create_custom_token (uid : String) : String :=
  "custom-token-for-" ++ uid

/-- `POST /auth/login`: look the user up by email and mint a token for its
uid.  The request's password is never consulted. -/
def login (users : List FBUser) (email password : String) :
    Except HTTPException TokenResponse :=
  match List.find? (fun u => u.email = email) users with
  | some firebase_user =>
      .ok ⟨create_custom_token firebase_user.uid, firebase_user.uid⟩
  | none => .error ⟨401, "auth error: no user record for email"⟩

/-- A Python exception as `admin_required`'s `try` block can raise one:
either a `fastapi.HTTPException` or some other SDK error. -/
inductive PyError where
  | httpExc (e : HTTPException)
  | sdkError (msg : String)
deriving DecidableEq

/-- Python `str(e)` for the exceptions above. -/
def strOfPyError : PyError → String
  | .httpExc e => strOfExc e
  | .sdkError m => m

/-- The environment `admin_required` runs against: `auth.verify_id_token`
(valid tokens decode to a uid) and the user store backing `auth.get_user`. -/
structure AuthOracle where
  verify_id_token : String → Option String
  users : List FBUser

/-- Python `claims.get(k)`. -/
def claims_get (claims : List (String × Bool)) (k : String) : Option Bool :=
  (List.find? (fun p => p.1 = k) claims).map Prod.snd

/-- Python truthiness of `user.custom_claims`: `None` and `{}` are falsy. -/
def claimsTruthy : Option (List (String × Bool)) → Bool
  | none => false
  | some [] => false
  | some (_ :: _) => true

/-- The characters before the next occurrence of `sep` (Python string
splitting, one segment). -/
def takeUntilSep (sep : List Char) : List Char → List Char
  | [] => []
  | c :: rest =>
    if List.isPrefixOf sep (c :: rest) then []
    else c :: takeUntilSep sep rest

/-- Python `s.split(sep)[1]` for a string that starts with `sep` (the only
situation in which `admin_required` evaluates it): the characters after the
leading separator, up to the separator's next occurrence. -/
def splitSecond (sep s : List Char) : List Char :=
  takeUntilSep sep (List.drop sep.length s)

/-- Python `s.startswith(t)`, evaluated on the underlying character lists. -/
def pyStartsWith (s t : String) : Bool :=
  List.isPrefixOf t.data s.data

/-- The `try` block of `admin_required`: extract the token with
`authorization.split('Bearer ')[1]`, verify it, fetch the user, and raise
`HTTPException(403)` unless the `admin` custom claim is truthy. -/
def admin_required_try (o : AuthOracle) (authorization : String) :
    Except PyError FBUser :=
  let token := String.mk (splitSecond "Bearer ".data authorization.data)
  match o.verify_id_token token with
  | none => .error (.sdkError "verify_id_token: invalid token")
  | some uid =>
    match List.find? (fun u => u.uid = uid) o.users with
    | none => .error (.sdkError "get_user: no user record")
    | some user =>
      if !(claimsTruthy user.custom_claims) ||
          !((claims_get (Option.getD user.custom_claims []) "admin").getD false) then
        .error (.httpExc ⟨403, "Admin privileges required"⟩)
      else
        .ok user

/-- `admin_required`: the empty/malformed-header check, then the `try` block.
Its `except Exception` clause catches every exception — the
`HTTPException(403)` raised for non-admin users included — and re-raises it
as a 401 whose detail is `str(e)`. -/
def admin_required (o : AuthOracle) (authorization : String) :
    Except HTTPException FBUser :=
  if authorization = "" || !(pyStartsWith authorization "Bearer ") then
    .error ⟨401, "Invalid authorization header. Use format: Bearer <token>"⟩
  else
    match admin_required_try o authorization with
    | .ok u => .ok u
    | .error e => .error ⟨401, strOfPyError e⟩

/-! ## Supporting lemmas for the claim theorems -/

namespace Dict

variable {V : Type}

theorem lookup_eq_none_of_not_mem (d : Dict V) (k : String) (h : ¬ k ∈ keys d) :
    lookup d k = none :=
  (lookup_eq_none_iff d k).mpr
    (Bool.eq_false_iff.mpr (fun hc => h ((hasKey_iff_mem_keys d k).mp hc)))

theorem deleteKeys_idem (d : Dict V) (ks : List String) :
    deleteKeys (deleteKeys d ks) ks = deleteKeys d ks := by
  simp only [deleteKeys_eq_filter, List.filter_filter]
  exact List.filter_congr (fun p _ => by by_cases h : p.1 ∈ ks <;> simp [h])

theorem deleteKeys_dedup (d : Dict V) (ks : List String) :
    deleteKeys d ks.dedup = deleteKeys d ks := by
  simp only [deleteKeys_eq_filter]
  exact List.filter_congr (fun p _ => by simp [List.mem_dedup])

end Dict

/-- After appending a fresh user and setting its claims, looking the uid up
finds exactly that user with exactly those claims. -/
theorem find?_set_custom_user_claims (users : List FBUser)
    (new_uid email password : String) (claims : List (String × Bool))
    (huid : ∀ u ∈ users, ¬ u.uid = new_uid) :
    List.find? (fun u => u.uid = new_uid)
        (set_custom_user_claims (users ++ [⟨new_uid, email, password, none⟩])
          new_uid claims)
      = some ⟨new_uid, email, password, some claims⟩ := by
  induction users with
  | nil =>
    simp [set_custom_user_claims, List.find?]
  | cons u us ih =>
    have hu : ¬ u.uid = new_uid := huid u (List.mem_cons_self u us)
    have hus : ∀ u' ∈ us, ¬ u'.uid = new_uid :=
      fun u' hu' => huid u' (List.mem_cons_of_mem u hu')
    simp only [List.cons_append, set_custom_user_claims, List.map_cons, if_neg hu]
    rw [List.find?_cons_of_neg _ (by simpa using hu)]
    exact ih hus

/-- A JSON scalar value, enough for the concrete parameter examples. -/
inductive PValue where
  | int (n : Int)
  | str (s : String)
deriving DecidableEq

/-! ## Claim theorems -/

/-- C1: for every current store and incoming mapping, `add_parameters`
persists and returns exactly the shallow union of the current mapping with
the incoming one, the incoming value winning on every key; the write is a
whole-document replacement (the new store is exactly the returned mapping),
and the message distinguishes creation from merge. -/
theorem add_parameters_merges_and_persists {V : Type} (store : Store V)
    (new_parameters : Dict V) (h : (Dict.keys new_parameters).Nodup) :
    ∃ r : ParamsResponse V,
      (add_parameters store new_parameters).1 = .ok r ∧
      (add_parameters store new_parameters).2 = some r.parameters ∧
      (∀ k, Dict.lookup r.parameters k =
        Option.or (Dict.lookup new_parameters k) (storeGet store k)) ∧
      (store = none → r.message = "New parameters document created successfully") ∧
      (∀ d, store = some d → r.message = "Parameters merged successfully") := by
  cases store with
  | none =>
    refine ⟨⟨"New parameters document created successfully", new_parameters⟩,
      rfl, rfl, ?_, ?_, ?_⟩
    · intro k
      simp [storeGet]
    · intro _
      rfl
    · intro d hd
      exact Option.noConfusion hd
  | some d =>
    refine ⟨⟨"Parameters merged successfully", Dict.pyUpdate d new_parameters⟩,
      rfl, rfl, ?_, ?_, ?_⟩
    · intro k
      exact Dict.lookup_pyUpdate new_parameters d k h
    · intro hc
      exact Option.noConfusion hc
    · intro d' hd
      rfl

theorem add_parameters_merges_and_persists_witness :
    (Dict.keys [("a", (2 : Nat))]).Nodup ∧
    ∃ r : ParamsResponse Nat,
      (add_parameters (some [("a", 1)]) [("a", 2)]).1 = .ok r ∧
      (add_parameters (some [("a", 1)]) [("a", 2)]).2 = some r.parameters ∧
      (∀ k, Dict.lookup r.parameters k =
        Option.or (Dict.lookup [("a", 2)] k) (storeGet (some [("a", 1)]) k)) ∧
      ((some [("a", 1)] : Store Nat) = none →
        r.message = "New parameters document created successfully") ∧
      (∀ d, (some [("a", 1)] : Store Nat) = some d →
        r.message = "Parameters merged successfully") :=
  ⟨by decide, add_parameters_merges_and_persists (some [("a", 1)]) [("a", 2)] (by decide)⟩

/-- C2: on a missing document, `update_parameters` fails with 404 and writes
nothing, while `add_parameters` creates the document holding exactly the
incoming mapping; on an existing document both perform the identical
incoming-wins merge. -/
theorem update_vs_add_parameters {V : Type} (incoming : Dict V)
    (h : (Dict.keys incoming).Nodup) :
    update_parameters (V := V) none incoming
      = (.error ⟨404, "Parameters document not found in Firestore"⟩, none) ∧
    add_parameters (V := V) none incoming
      = (.ok ⟨"New parameters document created successfully", incoming⟩, some incoming) ∧
    ∀ d : Dict V, ∃ ru ra : ParamsResponse V,
      (update_parameters (some d) incoming).1 = .ok ru ∧
      (update_parameters (some d) incoming).2 = some ru.parameters ∧
      (add_parameters (some d) incoming).1 = .ok ra ∧
      (add_parameters (some d) incoming).2 = some ra.parameters ∧
      ru.parameters = ra.parameters ∧
      (∀ k, Dict.lookup ru.parameters k =
        Option.or (Dict.lookup incoming k) (Dict.lookup d k)) := by
  refine ⟨rfl, rfl, fun d => ?_⟩
  exact ⟨⟨"Parameters updated successfully", Dict.pyUpdate d incoming⟩,
    ⟨"Parameters merged successfully", Dict.pyUpdate d incoming⟩,
    rfl, rfl, rfl, rfl, rfl, fun k => Dict.lookup_pyUpdate incoming d k h⟩

theorem update_vs_add_parameters_witness :
    (Dict.keys [("a", (2 : Nat))]).Nodup ∧
    update_parameters (V := Nat) none [("a", 2)]
      = (.error ⟨404, "Parameters document not found in Firestore"⟩, none) :=
  ⟨by decide, (update_vs_add_parameters [("a", 2)] (by decide)).1⟩

/-- C3 (code bug): with the document absent, `retrieve_parameters` does not
return the claimed 404 — the `HTTPException(404)` raised inside the `try` is
caught by the route's blanket `except Exception` and re-raised as a 500 whose
detail is the printed 404; with the document present the full mapping is
returned. -/
theorem retrieve_parameters_not_found_is_500 :
    retrieve_parameters (V := PValue) none
      = .error ⟨500, "404: Parameters document not found in Firestore"⟩ ∧
    retrieve_parameters (some [("n_estimators", PValue.int 100)])
      = .ok ⟨[("n_estimators", PValue.int 100)]⟩ :=
  ⟨rfl, rfl⟩

/-- C4 (code bug): the removal semantics hold on the spec's example — listed
keys present in the document are removed, the residual mapping is persisted
whole and returned next to the caller's full list — but with the document
absent the raised 404 is swallowed by `except Exception` and the route
answers 500, not the claimed NotFound. -/
theorem delete_parameters_not_found_is_500 :
    delete_parameters
        (some [("n_estimators", PValue.int 100), ("criterion", PValue.str "gini")])
        ["criterion"]
      = (.ok ⟨"Parameters deleted successfully", ["criterion"],
            [("n_estimators", PValue.int 100)]⟩,
         some [("n_estimators", PValue.int 100)]) ∧
    delete_parameters (V := PValue) none ["criterion"]
      = (.error ⟨500,
            "Internal Server Error: 404: Parameters document not found in Firestore"⟩,
         none) := by
  constructor
  · rfl
  · rfl

/-- C5: two `add_parameters` calls whose incoming mappings have disjoint key
sets produce the same final document (as a key-value map) in either order. -/
theorem add_parameters_order_independent {V : Type} (store : Store V)
    (a b : Dict V) (ha : (Dict.keys a).Nodup) (hb : (Dict.keys b).Nodup)
    (hdisj : ∀ k ∈ Dict.keys a, ¬ k ∈ Dict.keys b) :
    ∀ k, storeGet (add_parameters (add_parameters store a).2 b).2 k
       = storeGet (add_parameters (add_parameters store b).2 a).2 k := by
  intro k
  have hone : Dict.lookup a k = none ∨ Dict.lookup b k = none := by
    by_cases hka : k ∈ Dict.keys a
    · exact Or.inr (Dict.lookup_eq_none_of_not_mem b k (hdisj k hka))
    · exact Or.inl (Dict.lookup_eq_none_of_not_mem a k hka)
  cases store with
  | none =>
    show Dict.lookup (Dict.pyUpdate a b) k = Dict.lookup (Dict.pyUpdate b a) k
    rw [Dict.lookup_pyUpdate b a k hb, Dict.lookup_pyUpdate a b k ha]
    rcases hone with h | h <;> simp [h]
  | some d =>
    show Dict.lookup (Dict.pyUpdate (Dict.pyUpdate d a) b) k
       = Dict.lookup (Dict.pyUpdate (Dict.pyUpdate d b) a) k
    rw [Dict.lookup_pyUpdate b (Dict.pyUpdate d a) k hb,
        Dict.lookup_pyUpdate a d k ha,
        Dict.lookup_pyUpdate a (Dict.pyUpdate d b) k ha,
        Dict.lookup_pyUpdate b d k hb]
    rcases hone with h | h <;> simp [h]

theorem add_parameters_order_independent_witness :
    (Dict.keys [("a", (1 : Nat))]).Nodup ∧
    (Dict.keys [("b", (2 : Nat))]).Nodup ∧
    (∀ k ∈ Dict.keys [("a", (1 : Nat))], ¬ k ∈ Dict.keys [("b", (2 : Nat))]) ∧
    storeGet (add_parameters
        (add_parameters (some [("c", (0 : Nat))]) [("a", 1)]).2 [("b", 2)]).2 "a"
      = storeGet (add_parameters
        (add_parameters (some [("c", (0 : Nat))]) [("b", 2)]).2 [("a", 1)]).2 "a" :=
  ⟨by decide, by decide, by decide,
   add_parameters_order_independent (some [("c", 0)]) [("a", 1)] [("b", 2)]
     (by decide) (by decide) (by decide) "a"⟩

/-- C9: `delete_parameters` is idempotent in its key list — running it again
with the same list leaves the remaining mapping (and the stored document)
unchanged, and a list with duplicate keys acts like its deduplication. -/
theorem delete_parameters_idempotent {V : Type} (d : Dict V) (ks : List String) :
    ∃ r₁ r₂ rd : DeleteResponse V,
      delete_parameters (some d) ks = (.ok r₁, some r₁.remaining_parameters) ∧
      delete_parameters (some r₁.remaining_parameters) ks
        = (.ok r₂, some r₂.remaining_parameters) ∧
      r₂.remaining_parameters = r₁.remaining_parameters ∧
      delete_parameters (some d) ks.dedup = (.ok rd, some rd.remaining_parameters) ∧
      rd.remaining_parameters = r₁.remaining_parameters :=
  ⟨⟨"Parameters deleted successfully", ks, Dict.deleteKeys d ks⟩,
   ⟨"Parameters deleted successfully", ks, Dict.deleteKeys (Dict.deleteKeys d ks) ks⟩,
   ⟨"Parameters deleted successfully", ks.dedup, Dict.deleteKeys d ks.dedup⟩,
   rfl, rfl, Dict.deleteKeys_idem d ks, rfl, Dict.deleteKeys_dedup d ks⟩

/-- C10: when `update_parameters` or `delete_parameters` fails because the
document does not exist, the store is left exactly as it was — no document
gets created. -/
theorem not_found_paths_write_nothing {V : Type} (incoming : Dict V)
    (ks : List String) :
    (∃ e, (update_parameters (V := V) none incoming).1 = .error e) ∧
    (update_parameters (V := V) none incoming).2 = none ∧
    (∃ e, (delete_parameters (V := V) none ks).1 = .error e) ∧
    (delete_parameters (V := V) none ks).2 = none :=
  ⟨⟨_, rfl⟩, rfl, ⟨_, rfl⟩, rfl⟩

/-- C6 counterexample: in a state with no users at all, if `list_users`
raises and the `set_custom_user_claims` call inside the `except` handler
raises as well, `register` does not "still succeed" — the outer handler
turns the secondary failure into a 400 (and the created user keeps no
claims at all). -/
theorem register_fallback_failure_is_400 :
    register ⟨false, true, false, true⟩ [] "u1" "me@example.com" "pw"
      = (.error ⟨400, "auth error: set_custom_user_claims failed"⟩,
         [⟨"u1", "me@example.com", "pw", none⟩]) := rfl

/-- C6 (amended): with user creation succeeding, the first registered user is
marked admin with `is_admin = true` and any later user non-admin with
`is_admin = false`; if counting users or setting the claim fails after the
user was created, then — provided the handler's own `set_custom_user_claims`
call succeeds — the user is marked non-admin and the request still succeeds
(if that fallback call also fails, the request fails with 400). -/
theorem register_admin_policy (o : RegisterOracle) (users : List FBUser)
    (new_uid email password : String)
    (hcreate : o.create_user_fails = false)
    (hemail : ∀ u ∈ users, ¬ u.email = email)
    (huid : ∀ u ∈ users, ¬ u.uid = new_uid) :
    (users = [] → o.list_users_fails = false → o.set_claims_fails = false →
      register o users new_uid email password
        = (.ok ⟨"First user created successfully as admin", new_uid, true⟩,
           [⟨new_uid, email, password, some [("admin", true)]⟩])) ∧
    (users ≠ [] → o.list_users_fails = false → o.set_claims_fails = false →
      ∃ st : List FBUser,
        register o users new_uid email password
          = (.ok ⟨"User created successfully", new_uid, false⟩, st) ∧
        (List.find? (fun u => u.uid = new_uid) st).map FBUser.custom_claims
          = some (some [("admin", false)])) ∧
    ((o.list_users_fails = true ∨ o.set_claims_fails = true) →
      o.fallback_set_claims_fails = false →
      ∃ st : List FBUser,
        register o users new_uid email password
          = (.ok ⟨"User created successfully", new_uid, false⟩, st) ∧
        (List.find? (fun u => u.uid = new_uid) st).map FBUser.custom_claims
          = some (some [("admin", false)])) := by
  have hany : List.any users (fun u => u.email = email) = false :=
    List.any_eq_false.mpr (fun u hu => by simpa using hemail u hu)
  refine ⟨?_, ?_, ?_⟩
  · rintro rfl hl hs
    simp [register, hcreate, hl, hs, set_custom_user_claims]
  · intro hne hl hs
    have hlen : 0 < users.length := List.length_pos.mpr hne
    have hmin : ¬ (min (users.length + 1) 2 ≤ 1) := by
      rw [min_eq_right (by omega : 2 ≤ users.length + 1)]
      omega
    refine ⟨set_custom_user_claims (users ++ [⟨new_uid, email, password, none⟩])
      new_uid [("admin", false)], ?_, ?_⟩
    · simp [register, hcreate, hany, hl, hs, hmin]
    · rw [find?_set_custom_user_claims users new_uid email password _ huid]
      rfl
  · intro hsec hfb
    refine ⟨set_custom_user_claims (users ++ [⟨new_uid, email, password, none⟩])
      new_uid [("admin", false)], ?_, ?_⟩
    · rcases hsec with hl | hs
      · simp [register, hcreate, hany, hl, hfb]
      · by_cases hl : o.list_users_fails = true
        · simp [register, hcreate, hany, hl, hfb]
        · have hl' : o.list_users_fails = false := by
            simpa using hl
          by_cases hc :
            min ((users ++ [(⟨new_uid, email, password, none⟩ : FBUser)]).length) 2 ≤ 1
          · simp [register, hcreate, hany, hl', hs, hfb, hc]
          · simp [register, hcreate, hany, hl', hs, hfb, hc]
    · rw [find?_set_custom_user_claims users new_uid email password _ huid]
      rfl

theorem register_admin_policy_witness :
    (RegisterOracle.mk false false false false).create_user_fails = false ∧
    (∀ u ∈ ([] : List FBUser), ¬ u.email = "me@example.com") ∧
    (∀ u ∈ ([] : List FBUser), ¬ u.uid = "u1") ∧
    register ⟨false, false, false, false⟩ [] "u1" "me@example.com" "pw"
      = (.ok ⟨"First user created successfully as admin", "u1", true⟩,
         [⟨"u1", "me@example.com", "pw", some [("admin", true)]⟩]) :=
  ⟨rfl, by decide, by decide,
   (register_admin_policy ⟨false, false, false, false⟩ [] "u1" "me@example.com" "pw"
     rfl (by decide) (by decide)).1 rfl rfl rfl⟩

/-- C7 (code bug): a missing or malformed bearer header is rejected with 401,
but a token that decodes to a valid non-admin user is NOT answered with the
claimed 403 — the `HTTPException(403)` raised inside the `try` is caught by
the function's own `except Exception` and re-raised as a 401 whose detail is
the printed 403. -/
theorem admin_required_nonadmin_is_401 :
    admin_required ⟨fun t => if t = "tok" then some "u1" else none,
        [⟨"u1", "user@example.com", "pw", some [("admin", false)]⟩]⟩ ""
      = .error ⟨401, "Invalid authorization header. Use format: Bearer <token>"⟩ ∧
    admin_required ⟨fun t => if t = "tok" then some "u1" else none,
        [⟨"u1", "user@example.com", "pw", some [("admin", false)]⟩]⟩ "Bearer tok"
      = .error ⟨401, "403: Admin privileges required"⟩ :=
  ⟨rfl, rfl⟩

/-- C8: `login` never consults the supplied password — for any user store and
email, two requests that differ only in the password get identical outcomes
(same token and uid on success, same error otherwise). -/
theorem login_ignores_password (users : List FBUser) (email p₁ p₂ : String) :
    login users email p₁ = login users email p₂ := rfl
